import Mathlib

/-!
Shallow embedding of the availability-monitor program (monitor.py) and
proofs about its day-extraction, status-resolution, diff, snapshot,
retention, monitoring-window, notification-line and mention logic.
-/

namespace Monitor

/-! ## Basic string utilities mirroring Python primitives -/

/-- Characters treated as whitespace by Python's str.strip and the regex
class backslash-s, restricted to the characters that can occur in this
program's inputs (ASCII whitespace and the full-width space U+3000). -/
def isPySpace (c : Char) : Bool :=
  c = ' ' || c = '\t' || c = '\n' || c = '\r' || c = '\x0b' || c = '\x0c' || c = '　'

/-- Python str.strip: drop leading and trailing whitespace. -/
def pyStrip (s : String) : String :=
  String.mk (((s.toList.dropWhile isPySpace).reverse.dropWhile isPySpace).reverse)

/-- Does the first list occur as a contiguous run inside the second? -/
def listContains (needle : List Char) : List Char → Bool
  | [] => needle.isPrefixOf []
  | c :: t => needle.isPrefixOf (c :: t) || listContains needle t

/-- Python substring containment, needle in hay. -/
def strIn (needle hay : String) : Bool :=
  listContains needle.toList hay.toList

/-- Python str.replace of the full-width space by a half-width space. -/
def fwSpaceToHw (s : String) : String :=
  String.mk (s.toList.map (fun c => if c = '　' then ' ' else c))

/-- ASCII digit 0-9 by code point. -/
def isDigit09 (c : Char) : Bool :=
  48 ≤ c.toNat && c.toNat ≤ 57

/-- ASCII digit 1-9 by code point. -/
def isDigit19 (c : Char) : Bool :=
  49 ≤ c.toNat && c.toNat ≤ 57

/-- Numeric value of one ASCII digit. -/
def digitVal (c : Char) : Nat := c.toNat - 48

/-- Numeric value of a digit string. -/
def digitsVal (cs : List Char) : Nat :=
  cs.foldl (fun a c => 10 * a + digitVal c) 0

/-! ## The day regex

monitor.py extracts day numbers with the regular expression
([1-9]d?|1d|2d|3[01])s*DAY (d a digit, s a space, DAY the day kanji),
used by _find_day_in_text, _day_str_to_int, compute_improved_days and
the fallback summarizer.  The last three alternatives are subsumed by
the backtracking behaviour of the first, so the search below implements
the equivalent pattern ([1-9]d?)s*DAY with greedy backtracking. -/

/-- Match the regex tail (zero or more spaces, then the day kanji) at the
head of the character list, returning the consumed characters. -/
def matchSpacesThenDay : List Char → Option (List Char)
  | [] => none
  | c :: t =>
    if c = '日' then some ['日']
    else if isPySpace c then (matchSpacesThenDay t).map (fun ws => c :: ws)
    else none

/-- The greedy two-digit attempt of the day pattern. -/
def matchTwoDigit (c1 c2 : Char) (rest2 : List Char) :
    Option (List Char × List Char) :=
  if isDigit09 c2 then
    match matchSpacesThenDay rest2 with
    | some ws => some ([c1, c2], c1 :: c2 :: ws)
    | none => none
  else none

/-- The backtracked one-digit attempt of the day pattern. -/
def matchOneDigit (c1 : Char) (rest : List Char) :
    Option (List Char × List Char) :=
  match matchSpacesThenDay rest with
  | some ws => some ([c1], c1 :: ws)
  | none => none

/-- Match the whole day pattern at the head of the list; on success
return the digit group and the complete matched text.  The greedy
two-digit attempt is tried first and the engine backtracks to the
one-digit attempt, exactly as the regex does. -/
def matchDayAt : List Char → Option (List Char × List Char)
  | [] => none
  | c1 :: rest =>
    if isDigit19 c1 then
      (match rest with
       | c2 :: rest2 => matchTwoDigit c1 c2 rest2
       | [] => none).orElse (fun _ => matchOneDigit c1 rest)
    else none

/-- re.search: leftmost match of the day pattern. -/
def searchDay : List Char → Option (List Char × List Char)
  | [] => none
  | c :: t =>
    match matchDayAt (c :: t) with
    | some r => some r
    | none => searchDay t

/-- re.search with MULTILINE start-of-line anchor: the pattern may only
match at position 0 or immediately after a newline (used by the fallback
summarizer on the first 40 characters of a cell's text). -/
def searchDayAfterNewline : List Char → Option (List Char × List Char)
  | [] => none
  | c :: t =>
    if c = '\n' then
      match matchDayAt t with
      | some r => some r
      | none => searchDayAfterNewline t
    else searchDayAfterNewline t

def searchDayAnchored (cs : List Char) : Option (List Char × List Char) :=
  match matchDayAt cs with
  | some r => some r
  | none => searchDayAfterNewline cs

/-- _find_day_in_text: the matched text of the day pattern, if any. -/
def findDayInText (s : String) : Option String :=
  (searchDay s.toList).map (fun g => String.mk g.2)

/-- _day_str_to_int: the integer value of the digit group of the day
pattern, if any. -/
def dayStrToInt (s : String) : Option Nat :=
  (searchDay s.toList).map (fun g => digitsVal g.1)

/-! ## Status resolution (_st_from_text_and_src, _status_from_class) -/

/-- The circle/triangle/cross keyword lists from config.json, used both
for status_patterns and css_class_patterns. -/
structure Patterns where
  circle : List String
  triangle : List String
  cross : List String

def emptyPatterns : Patterns := ⟨[], [], []⟩

/-- _st_from_text_and_src: literal glyph detection first (the circle
U+25CB, the large circle U+25EF which is mapped to U+25CB, the triangle,
the cross), then configured keywords on the lower-cased text with
full-width spaces replaced by half-width ones. -/
def stFromTextAndSrc (raw : String) (patterns : Patterns) : Option String :=
  let txt := pyStrip raw
  let n := (fwSpaceToHw txt).toLower
  if txt.toList.contains '○' then some "○"
  else if txt.toList.contains '◯' then some "○"
  else if txt.toList.contains '△' then some "△"
  else if txt.toList.contains '×' then some "×"
  else if patterns.circle.any (fun kw => strIn kw.toLower n) then some "○"
  else if patterns.triangle.any (fun kw => strIn kw.toLower n) then some "△"
  else if patterns.cross.any (fun kw => strIn kw.toLower n) then some "×"
  else none

/-- _status_from_class: keyword match against the lower-cased CSS class
text; the empty class resolves to nothing. -/
def statusFromClass (cls : String) (css : Patterns) : Option String :=
  if cls = "" then none
  else
    let c := cls.toLower
    if css.circle.any (fun kw => strIn kw c) then some "○"
    else if css.triangle.any (fun kw => strIn kw c) then some "△"
    else if css.cross.any (fun kw => strIn kw c) then some "×"
    else none

/-! ## Vacancy summarizer (summarize_vacancies) -/

/-- An img tag's alt, title and src attributes. -/
structure Img where
  alt : String
  title : String
  src : String

/-- One td block as extracted by _extract_td_blocks from the calendar
markup: its class, title and aria-label attributes, the text rendering
of its inner markup (_inner_text_like), and its embedded img tags. -/
structure TdBlock where
  cls : String
  title : String
  aria : String
  innerText : String
  imgs : List Img

/-- One Day Detail entry appended per materialized cell. -/
structure Detail where
  day : String
  status : String
  text : String
deriving DecidableEq

/-- Day extraction from a block's embedded images: the first image whose
alt/title text contains the day pattern. -/
def imgsDayPrimary : List Img → Option String
  | [] => none
  | im :: t =>
    match findDayInText (im.alt ++ " " ++ im.title) with
    | some d => some d
    | none => imgsDayPrimary t

/-- summarize_vacancies day extraction: cell text, then the joined
title/aria attributes, then embedded images. -/
def blockDay (b : TdBlock) : Option String :=
  match findDayInText b.innerText with
  | some d => some d
  | none =>
    match findDayInText (b.title ++ " " ++ b.aria) with
    | some d => some d
    | none => imgsDayPrimary b.imgs

/-- Status from a block's embedded images: the first image whose joined
alt/title/src text yields a status. -/
def imgsStatusPrimary (pat : Patterns) : List Img → Option String
  | [] => none
  | im :: t =>
    match stFromTextAndSrc (im.alt ++ " " ++ im.title ++ " " ++ im.src) pat with
    | some st => some st
    | none => imgsStatusPrimary pat t

/-- summarize_vacancies status resolution: cell text, then embedded
images, then CSS class, else the undetermined marker. -/
def blockStatus (b : TdBlock) (pat css : Patterns) : String :=
  match stFromTextAndSrc b.innerText pat with
  | some st => st
  | none =>
    match imgsStatusPrimary pat b.imgs with
    | some st => st
    | none =>
      match statusFromClass b.cls css with
      | some st => st
      | none => "未判定"

/-- The initial summary dict with its four fixed keys. -/
def initSummary : List (String × Nat) :=
  [("○", 0), ("△", 0), ("×", 0), ("未判定", 0)]

/-- Python dict get with default 0. -/
def dictGet (m : List (String × Nat)) (k : String) : Nat :=
  (List.lookup k m).getD 0

/-- Python summary[st] = summary.get(st, 0) + 1: update the existing
entry in place, or append a fresh one. -/
def dictBump (k : String) : List (String × Nat) → List (String × Nat)
  | [] => [(k, 1)]
  | (k2, v) :: t => if k2 = k then (k2, v + 1) :: t else (k2, v) :: dictBump k t

/-- One loop iteration of summarize_vacancies over a td block. -/
def summarizeStep (pat css : Patterns) (acc : List (String × Nat) × List Detail)
    (b : TdBlock) : List (String × Nat) × List Detail :=
  match blockDay b with
  | none => acc
  | some day =>
    let st := blockStatus b pat css
    (dictBump st acc.1, acc.2 ++ [⟨day, st, b.innerText⟩])

/-- summarize_vacancies, from the td blocks extracted from the calendar
markup: the (summary, details) pair. -/
def summarizeFromBlocks (blocks : List TdBlock) (pat css : Patterns) :
    List (String × Nat) × List Detail :=
  blocks.foldl (summarizeStep pat css) (initSummary, [])

/-! ## Fallback summarizer (_summarize_vacancies_fallback) -/

/-- One candidate cell as queried live by the fallback path: its inner
text, aria-label, title and class attributes, and child images. -/
structure FallbackCell where
  txt : String
  aria : String
  title : String
  cls : String
  imgs : List Img

/-- Fallback day extraction from child images (unanchored search on each
image's joined alt/title text), returning the digit group. -/
def imgsDayDigits : List Img → Option (List Char)
  | [] => none
  | im :: t =>
    match searchDay (im.alt ++ " " ++ im.title).toList with
    | some g => some g.1
    | none => imgsDayDigits t

/-- Fallback day extraction: a line-anchored search over the first 40
characters of the cell text, then an unanchored search over the joined
aria/title attributes, then the child images; the digit group of the
first match. -/
def fallbackDayDigits (c : FallbackCell) : Option (List Char) :=
  match searchDayAnchored (c.txt.toList.take 40) with
  | some g => some g.1
  | none =>
    match searchDay (c.aria ++ " " ++ c.title).toList with
    | some g => some g.1
    | none => imgsDayDigits c.imgs

/-- Fallback status from child images: alt/title first, then src alone,
first image that yields a status. -/
def imgsStatusFallback (pat : Patterns) : List Img → Option String
  | [] => none
  | im :: t =>
    match stFromTextAndSrc (im.alt ++ " " ++ im.title) pat with
    | some st => some st
    | none =>
      match stFromTextAndSrc im.src pat with
      | some st => some st
      | none => imgsStatusFallback pat t

/-- Fallback CSS-class keyword loops (no empty-class short-circuit in
this path). -/
def classStatusFallback (cls : String) (css : Patterns) : Option String :=
  let c := cls.toLower
  if css.circle.any (fun kw => strIn kw c) then some "○"
  else if css.triangle.any (fun kw => strIn kw c) then some "△"
  else if css.cross.any (fun kw => strIn kw c) then some "×"
  else none

/-- Fallback status resolution: cell text, then child images, then the
joined aria/title attributes, then CSS class, else undetermined. -/
def cellStatus (c : FallbackCell) (pat css : Patterns) : String :=
  match stFromTextAndSrc c.txt pat with
  | some st => st
  | none =>
    match imgsStatusFallback pat c.imgs with
    | some st => st
    | none =>
      match stFromTextAndSrc (c.aria ++ " " ++ c.title) pat with
      | some st => st
      | none =>
        match classStatusFallback c.cls css with
        | some st => st
        | none => "未判定"

/-- One loop iteration of the fallback summarizer over a cell; the day
string is rebuilt from the digit group followed by the day kanji. -/
def summarizeFallbackStep (pat css : Patterns)
    (acc : List (String × Nat) × List Detail) (c : FallbackCell) :
    List (String × Nat) × List Detail :=
  match fallbackDayDigits c with
  | none => acc
  | some digits =>
    let st := cellStatus c pat css
    (dictBump st acc.1, acc.2 ++ [⟨String.mk digits ++ "日", st, c.txt⟩])

/-- _summarize_vacancies_fallback over the candidate cells. -/
def summarizeFallback (cells : List FallbackCell) (pat css : Patterns) :
    List (String × Nat) × List Detail :=
  cells.foldl (summarizeFallbackStep pat css) (initSummary, [])

/-! ## Improvement diff engine (IMPROVE_TRANSITIONS, compute_improved_days) -/

/-- The fixed improvement set. -/
def IMPROVE_TRANSITIONS : List (String × String) :=
  [("×", "△"), ("△", "○"), ("×", "○"), ("未判定", "△"), ("未判定", "○")]

/-- Build the day-number-to-status dict from a Day Detail list; as in a
Python dict, a later entry for the same day wins, which the cons-list
and first-match lookup below reproduce. -/
def detailMap (ds : List Detail) : List (Nat × String) :=
  ds.foldl (fun m d =>
    match dayStrToInt d.day with
    | some n => (n, d.status) :: m
    | none => m) []

/-- compute_improved_days: the days present in both maps whose ordered
status pair is an improvement transition, in ascending order. -/
def computeImprovedDays (prevDetails curDetails : List Detail) : List Nat :=
  let prevMap := detailMap prevDetails
  let curMap := detailMap curDetails
  let improved := ((curMap.map Prod.fst).dedup).filter (fun di =>
    match List.lookup di prevMap, List.lookup di curMap with
    | some ps, some cs => decide ((ps, cs) ∈ IMPROVE_TRANSITIONS)
    | _, _ => false)
  List.insertionSort (· ≤ ·) improved

/-! ## Calendar arithmetic (datetime.date, weekday, _weekday_jp) -/

def isLeapYear (y : Nat) : Bool :=
  y % 4 = 0 && (y % 100 ≠ 0 || y % 400 = 0)

def daysInMonth (y m : Nat) : Nat :=
  if m = 2 then (if isLeapYear y then 29 else 28)
  else if m = 4 || m = 6 || m = 9 || m = 11 then 30
  else 31

/-- Day-of-year of a proleptic Gregorian date. -/
def dayOfYear (y m d : Nat) : Nat :=
  (((List.range (m - 1)).map (fun i => daysInMonth y (i + 1))).sum) + d

/-- Days elapsed from the civil epoch: day 1 is 0001-01-01. -/
def daysFromCivil (y m d : Nat) : Nat :=
  365 * (y - 1) + (y - 1) / 4 + (y - 1) / 400 + dayOfYear y m d - (y - 1) / 100

/-- datetime.date.weekday: Monday is 0; 0001-01-01 was a Monday. -/
def pyWeekday (y m d : Nat) : Nat :=
  (daysFromCivil y m d + 6) % 7

def weekdayNamesJp : List String := ["月", "火", "水", "木", "金", "土", "日"]

/-- _weekday_jp. -/
def weekdayJp (y m d : Nat) : String :=
  weekdayNamesJp.getD (pyWeekday y m d) ""

/-- datetime.date raises ValueError outside these bounds. -/
def dateValid (y m d : Nat) : Bool :=
  1 ≤ y && y ≤ 9999 && 1 ≤ m && m ≤ 12 && 1 ≤ d && d ≤ daysInMonth y m

/-- _is_japanese_holiday: false when the display flag is off or the
holiday library is absent, else the library's verdict. -/
def isJapaneseHoliday (includeFlag : Bool)
    (jph : Option (Nat → Nat → Nat → Bool)) (y m d : Nat) : Bool :=
  if !includeFlag then false
  else
    match jph with
    | none => false
    | some f => f y m d

/-! ## Month-text parsing (_parse_month_text) -/

/-- _parse_month_text: re.match of four digits, the year kanji, one or
two digits (greedy), the month kanji, anchored at the start of the
string, trailing text allowed. -/
def parseMonthText (s : String) : Option (Nat × Nat) :=
  match s.toList with
  | a :: b :: c :: d :: '年' :: m1 :: tail =>
    if isDigit09 a && isDigit09 b && isDigit09 c && isDigit09 d && isDigit09 m1 then
      match tail with
      | m2 :: '月' :: _ =>
        if isDigit09 m2 then some (digitsVal [a, b, c, d], digitsVal [m1, m2])
        else none
      | '月' :: _ => some (digitsVal [a, b, c, d], digitsVal [m1])
      | _ => none
    else none
  | _ => none

/-! ## Time-band notification lines (build_time_increase_lines)

The per-day range collection (goto_day_and_collect_time_ranges) drives a
live browser; it is abstracted as the function rangesOf from a day
number to its collected list of available hour ranges. -/

/-- The rendered line for one improved day: year/month/day, the
parenthesized weekday optionally suffixed with the holiday marker, a
colon, and the ranges joined by a full-width comma. -/
def mkTimeLine (includeFlag : Bool) (jph : Option (Nat → Nat → Nat → Bool))
    (y mo di : Nat) (ranges : List String) : String :=
  let wd := weekdayJp y mo di
  let wdPart := if isJapaneseHoliday includeFlag jph y mo di then wd ++ "・祝" else wd
  toString y ++ "年" ++ toString mo ++ "月" ++ toString di ++ "日 (" ++ wdPart ++ ") : "
    ++ String.intercalate "、" ranges

/-- The loop body of build_time_increase_lines: days with an empty range
list are skipped; constructing an invalid calendar date raises, modelled
as the none result. -/
def timeLinesGo (includeFlag : Bool) (jph : Option (Nat → Nat → Nat → Bool))
    (rangesOf : Nat → List String) (y mo : Nat) : List Nat → Option (List String)
  | [] => some []
  | di :: t =>
    let ranges := rangesOf di
    if ranges.isEmpty then timeLinesGo includeFlag jph rangesOf y mo t
    else if dateValid y mo di then
      (timeLinesGo includeFlag jph rangesOf y mo t).map
        (fun ls => mkTimeLine includeFlag jph y mo di ranges :: ls)
    else none

/-- build_time_increase_lines: an unparsable month text produces no
lines; otherwise one line per improved day with a non-empty collected
range list, in the order of compute_improved_days. -/
def buildTimeIncreaseLines (includeFlag : Bool)
    (jph : Option (Nat → Nat → Nat → Bool)) (rangesOf : Nat → List String)
    (monthText : String) (prevDetails curDetails : List Detail) :
    Option (List String) :=
  match parseMonthText monthText with
  | none => some []
  | some (y, mo) =>
    timeLinesGo includeFlag jph rangesOf y mo (computeImprovedDays prevDetails curDetails)

/-! ## Snapshot save and change gate (summaries_changed, save_calendar_assets) -/

def fourKeys : List String := ["○", "△", "×", "未判定"]

/-- summaries_changed on optional summary dicts. -/
def summariesChanged (prev cur : Option (List (String × Nat))) : Bool :=
  match prev, cur with
  | none, some _ => true
  | none, none => false
  | some p, c => fourKeys.any (fun k => dictGet p k ≠ dictGet (c.getD []) k)

/-- The file names written by save_calendar_assets: the latest pair is
always written, the timestamped pair only when save_ts is set. -/
structure SaveResult where
  latestHtml : String
  latestPng : String
  tsHtml : Option String
  tsPng : Option String

def saveCalendarAssets (ts : String) (saveTs : Bool) : SaveResult :=
  { latestHtml := "calendar.html"
    latestPng := "calendar.png"
    tsHtml := if saveTs then some ("calendar_" ++ ts ++ ".html") else none
    tsPng := if saveTs then some ("calendar_" ++ ts ++ ".png") else none }

/-- The run_monitor wiring: the timestamped pair is gated on
summaries_changed. -/
def saveWithChangeGate (prev cur : Option (List (String × Nat))) (ts : String) :
    SaveResult :=
  saveCalendarAssets ts (summariesChanged prev cur)

/-! ## Retention pruning (rotate_snapshot_files) -/

/-- A directory entry: file name and modification time. -/
structure SnapFile where
  name : String
  mtime : Nat

/-- Does a name match the glob calendar underscore star dot png?  The
prefix/suffix/length test is equivalent to the glob because the prefix
and suffix cannot overlap at the required length. -/
def isTsPng (s : String) : Bool :=
  "calendar_".toList.isPrefixOf s.toList && ".png".toList.isSuffixOf s.toList
    && 13 ≤ s.toList.length

/-- Does a name match the glob calendar underscore star dot html? -/
def isTsHtml (s : String) : Bool :=
  "calendar_".toList.isPrefixOf s.toList && ".html".toList.isSuffixOf s.toList
    && 14 ≤ s.toList.length

def byMtime (a b : SnapFile) : Prop := a.mtime ≤ b.mtime

instance : DecidableRel byMtime := fun a b => Nat.decLe a.mtime b.mtime

instance : IsTotal SnapFile byMtime := ⟨fun a b => Nat.le_total a.mtime b.mtime⟩

instance : IsTrans SnapFile byMtime := ⟨fun _ _ _ => Nat.le_trans⟩

/-- The timestamped png files sorted oldest first by modification time
(a stable sort, as in Python). -/
def pngTsSorted (files : List SnapFile) : List SnapFile :=
  List.insertionSort byMtime (files.filter (fun f => isTsPng f.name))

/-- The timestamped html files sorted oldest first. -/
def htmlTsSorted (files : List SnapFile) : List SnapFile :=
  List.insertionSort byMtime (files.filter (fun f => isTsHtml f.name))

/-- The png files unlinked by rotate_snapshot_files. -/
def rotateDeletedPng (files : List SnapFile) (maxPng : Nat) : List SnapFile :=
  if maxPng < (pngTsSorted files).length then
    (pngTsSorted files).take ((pngTsSorted files).length - maxPng)
  else []

/-- The html files unlinked by rotate_snapshot_files. -/
def rotateDeletedHtml (files : List SnapFile) (maxHtml : Nat) : List SnapFile :=
  if maxHtml < (htmlTsSorted files).length then
    (htmlTsSorted files).take ((htmlTsSorted files).length - maxHtml)
  else []

/-- All files unlinked by rotate_snapshot_files. -/
def rotateDeleted (files : List SnapFile) (maxPng maxHtml : Nat) : List SnapFile :=
  rotateDeletedPng files maxPng ++ rotateDeletedHtml files maxHtml

/-! ## Monitoring window (is_within_monitoring_window) -/

/-- is_within_monitoring_window; the clock is the current hour, none
when computing the current time raises. -/
def isWithinMonitoringWindow (startHour endHour : Nat) (clock : Option Nat) :
    Bool × Option Nat :=
  match clock with
  | some h => (decide (startHour ≤ h) && decide (h ≤ endHour), some h)
  | none => (true, none)

/-! ## Mention construction (_build_mention_and_allowed) -/

/-- The allowed_mentions delivery metadata attached to every webhook
payload: the parse list, and the users list when present. -/
structure AllowedMentions where
  parse : List String
  users : Option (List String)
deriving DecidableEq

/-- _build_mention_and_allowed from the three environment settings (the
stripped user id, the everyone toggle, the here toggle). -/
def buildMentionAndAllowed (uid : String) (useEveryone useHere : Bool) :
    String × AllowedMentions :=
  if uid ≠ "" then ("<@" ++ uid ++ ">", ⟨[], some [uid]⟩)
  else if useEveryone then ("@everyone", ⟨["everyone"], none⟩)
  else if useHere then ("@here", ⟨[], none⟩)
  else ("", ⟨[], none⟩)

/-- Modelled from the spec: the delivery metadata must scope the
notification's actual paging ability.  Discord resolves a broadcast
mention written in the content only when the allowed_mentions parse list
contains the everyone type, which governs both the everyone and the here
broadcast; a user id mention pages only when listed in users or when the
users type is in parse. -/
def canPageHere (a : AllowedMentions) : Bool :=
  a.parse.contains "everyone"

def canPageEveryone (a : AllowedMentions) : Bool :=
  a.parse.contains "everyone"

def canPageUser (a : AllowedMentions) (uid : String) : Bool :=
  a.parse.contains "users" || (a.users.getD []).contains uid

/-! ## Spec-side renderings used for comparison

The following definitions follow the specification's wording, not the
code; they exist to compare the code's observable behaviour against the
behaviour the specification describes. -/

/-- Modelled from the spec: the fixed emoji glyph for each status used
by the improvement-line rendering the specification describes; no such
rendering exists in this revision's code. -/
def statusEmoji (st : String) : String :=
  if st = "×" then "✖️"
  else if st = "△" then "🔼"
  else if st = "○" then "⭕️"
  else "❓"

/-- Modelled from the spec: the per-improved-day notification line of
the specification's diff engine, showing the previous and current
statuses as emoji separated by an arrow. -/
def specImprovementLine (includeFlag : Bool)
    (jph : Option (Nat → Nat → Nat → Bool)) (y mo di : Nat)
    (prevSt curSt : String) : String :=
  let wd := weekdayJp y mo di
  let wdPart := if isJapaneseHoliday includeFlag jph y mo di then wd ++ "・祝" else wd
  toString y ++ "年" ++ toString mo ++ "月" ++ toString di ++ "日 (" ++ wdPart ++ ") : "
    ++ statusEmoji prevSt ++ " → " ++ statusEmoji curSt

/-- Modelled from the spec: the slot-level diff of the extracted ranges
against a separately persisted per-day baseline (a newly appearing
available range is newsworthy); no such baseline exists in this
revision's code. -/
def specTimeBandDiff (baseline rangesOf : Nat → List String) (di : Nat) :
    List String :=
  (rangesOf di).filter (fun r => !(baseline di).contains r)

/-- Modelled from the spec: time-band notification lines gated on a
non-empty baseline diff rather than on a non-empty extracted list. -/
def specTimeBandLines (includeFlag : Bool)
    (jph : Option (Nat → Nat → Nat → Bool)) (baseline rangesOf : Nat → List String)
    (y mo : Nat) (prevDetails curDetails : List Detail) : List String :=
  ((computeImprovedDays prevDetails curDetails).filter
      (fun di => !(specTimeBandDiff baseline rangesOf di).isEmpty)).map
    (fun di => mkTimeLine includeFlag jph y mo di (rangesOf di))

/-! ## Concrete inputs for witnesses and counterexamples -/

/-- Previous Day Details: day 5 was unavailable. -/
def demoPrev : List Detail := [⟨"5日", "×", ""⟩]

/-- Current Day Details: day 5 is available. -/
def demoCur : List Detail := [⟨"5日", "○", ""⟩]

/-- Extracted available ranges: one range on day 5. -/
def demoRanges : Nat → List String := fun di => if di = 5 then ["9～12時"] else []

/-- A persisted baseline already containing day 5's extracted range. -/
def demoBaseline : Nat → List String := fun di => if di = 5 then ["9～12時"] else []

/-- A cell whose text carries the ideographic number zero U+3007. -/
def ideographBlock : TdBlock := ⟨"", "", "", "5日 〇", []⟩

/-- A cell whose text carries the day number 32. -/
def day32Block : TdBlock := ⟨"", "", "", "32日", []⟩

/-- Three timestamped screenshots with distinct modification times plus
the non-stamped latest pair. -/
def demoFiles : List SnapFile :=
  [⟨"calendar_20250101_000003.png", 3⟩, ⟨"calendar.png", 9⟩,
   ⟨"calendar_20250101_000001.png", 1⟩, ⟨"calendar.html", 9⟩,
   ⟨"calendar_20250101_000002.png", 2⟩]

/-- The summarizer result invariant: the summary holds exactly the four
fixed keys, its counts sum to the number of Day Details, and every Day
Detail's status is one of the four values. -/
def SummOk (r : List (String × Nat) × List Detail) : Prop :=
  r.1.map Prod.fst = fourKeys ∧
  (r.1.map Prod.snd).sum = r.2.length ∧
  ∀ d ∈ r.2, d.status ∈ fourKeys

/-! # Theorems -/

/-- C7: the monitoring-window predicate accepts exactly the hours with
start less-or-equal hour less-or-equal end; with start 5 and end 23,
hour 4 is rejected and hour 23 accepted; a clock failure yields true. -/
theorem c7_monitoring_window :
    (∀ s e h, (isWithinMonitoringWindow s e (some h)).1 = true ↔ (s ≤ h ∧ h ≤ e)) ∧
    (∀ s e, (isWithinMonitoringWindow s e none).1 = true) ∧
    (isWithinMonitoringWindow 5 23 (some 4)).1 = false ∧
    (isWithinMonitoringWindow 5 23 (some 23)).1 = true := by
  refine ⟨fun s e h => ?_, fun s e => rfl, by decide, by decide⟩
  simp [isWithinMonitoringWindow]

/-- C7 witness: the theorem applied at hour 10 inside the 5-to-23
window. -/
theorem c7_witness : (isWithinMonitoringWindow 5 23 (some 10)).1 = true :=
  (c7_monitoring_window.1 5 23 10).mpr ⟨by decide, by decide⟩

/-- C9: evaluating the mention builder at the here-mode configuration
(empty user id, everyone off, here on) yields the at-here content with
an empty allowed-mentions parse list, which cannot page anyone, while
the user-id and everyone modes do allow their configured paging. -/
theorem c9_here_mode_cannot_page :
    buildMentionAndAllowed "" false true = ("@here", ⟨[], none⟩) ∧
    canPageHere (buildMentionAndAllowed "" false true).2 = false ∧
    canPageUser (buildMentionAndAllowed "123" false false).2 "123" = true ∧
    canPageEveryone (buildMentionAndAllowed "" true false).2 = true := by
  refine ⟨by decide, by decide, by decide, by decide⟩

/-- C2 counterexample: at a concrete improved day the code's line shows
the day's available hour ranges, not the emoji-rendered status
transition the claim describes. -/
theorem c2_counterexample :
    buildTimeIncreaseLines false none demoRanges "2026年2月" demoPrev demoCur
      = some ["2026年2月5日 (木) : 9～12時"] ∧
    specImprovementLine false none 2026 2 5 "×" "○" = "2026年2月5日 (木) : ✖️ → ⭕️" ∧
    ("2026年2月5日 (木) : 9～12時" : String) ≠ "2026年2月5日 (木) : ✖️ → ⭕️" := by
  refine ⟨by decide, by decide, by decide⟩

/-- C3 counterexample: with a persisted baseline already containing day
5's extracted range the specified baseline diff produces no line, yet
the code still emits one: the code consults no baseline at all. -/
theorem c3_counterexample :
    buildTimeIncreaseLines false none demoRanges "2026年2月" demoPrev demoCur
      = some ["2026年2月5日 (木) : 9～12時"] ∧
    specTimeBandLines false none demoBaseline demoRanges 2026 2 demoPrev demoCur = [] := by
  refine ⟨by decide, by decide⟩

/-- C6 counterexample: a cell text carrying the ideographic number zero
U+3007 is not recognized as a circle glyph and resolves to Unknown,
while the large circle U+25EF does normalize to Available: the claimed
normalization of the ideographic variant does not happen. -/
theorem c6_counterexample :
    summarizeFromBlocks [ideographBlock] emptyPatterns emptyPatterns
      = ([("○", 0), ("△", 0), ("×", 0), ("未判定", 1)], [⟨"5日", "未判定", "5日 〇"⟩]) ∧
    stFromTextAndSrc "〇" emptyPatterns = none ∧
    stFromTextAndSrc "◯" emptyPatterns = some "○" := by
  refine ⟨by decide, by decide, by decide⟩

/-- A key is in the image of Prod.fst exactly when its lookup succeeds. -/
theorem lookup_isSome_iff {m : List (Nat × String)} {k : Nat} :
    (∃ v, List.lookup k m = some v) ↔ k ∈ m.map Prod.fst := by
  induction m with
  | nil => simp [List.lookup]
  | cons p t ih =>
    obtain ⟨a, b⟩ := p
    by_cases hk : k = a
    · subst hk
      simp [List.lookup]
    · have hbeq : (k == a) = false := beq_false_of_ne hk
      simp [List.lookup, hbeq, hk, ih]

/-- The improved-day list of compute_improved_days is sorted. -/
theorem computeImprovedDays_sorted (prevDetails curDetails : List Detail) :
    List.Sorted (· ≤ ·) (computeImprovedDays prevDetails curDetails) :=
  List.sorted_insertionSort _ _

/-- Membership in compute_improved_days unravelled to the two lookups
and the transition set. -/
theorem mem_computeImprovedDays {prevDetails curDetails : List Detail} {di : Nat} :
    di ∈ computeImprovedDays prevDetails curDetails ↔
      ∃ ps cs, List.lookup di (detailMap prevDetails) = some ps ∧
        List.lookup di (detailMap curDetails) = some cs ∧
        (ps, cs) ∈ IMPROVE_TRANSITIONS := by
  unfold computeImprovedDays
  rw [(List.perm_insertionSort _ _).mem_iff, List.mem_filter, List.mem_dedup]
  constructor
  · rintro ⟨hmem, hpred⟩
    obtain ⟨cs, hcs⟩ := lookup_isSome_iff.mpr hmem
    cases hps : List.lookup di (detailMap prevDetails) with
    | none => rw [hps, hcs] at hpred; simp at hpred
    | some ps =>
      refine ⟨ps, cs, rfl, hcs, ?_⟩
      rw [hps, hcs] at hpred
      exact of_decide_eq_true hpred
  · rintro ⟨ps, cs, hps, hcs, htr⟩
    refine ⟨lookup_isSome_iff.mp ⟨cs, hcs⟩, ?_⟩
    rw [hps, hcs]
    exact decide_eq_true htr

/-- C1: a day is flagged by the improvement computation exactly when it
is recorded in both the previous and the current day-to-status map and
the ordered status pair is one of the five improvement transitions, and
the flagged days are returned in ascending order. -/
theorem c1_compute_improved_days (prevDetails curDetails : List Detail) (di : Nat) :
    (di ∈ computeImprovedDays prevDetails curDetails ↔
      ∃ ps cs, List.lookup di (detailMap prevDetails) = some ps ∧
        List.lookup di (detailMap curDetails) = some cs ∧
        (ps, cs) ∈ IMPROVE_TRANSITIONS) ∧
    List.Sorted (· ≤ ·) (computeImprovedDays prevDetails curDetails) :=
  ⟨mem_computeImprovedDays, computeImprovedDays_sorted prevDetails curDetails⟩

/-- C1 witness: the theorem applied at a concrete pair of detail lists
shows day 5 flagged for the cross-to-circle transition. -/
theorem c1_witness : 5 ∈ computeImprovedDays demoPrev demoCur :=
  (c1_compute_improved_days demoPrev demoCur 5).1.mpr
    ⟨"×", "○", by decide, by decide, by decide⟩

/-- summaries_changed on two present summaries is exactly the
four-key count comparison. -/
theorem summariesChanged_some_iff (p c : List (String × Nat)) :
    summariesChanged (some p) (some c) = true ↔
      ∃ k ∈ fourKeys, dictGet p k ≠ dictGet c k := by
  simp [summariesChanged, List.any_eq_true]

/-- C4: with a previously persisted summary present, the timestamped
HTML/screenshot pair is created exactly when the new summary differs
from it in at least one of the four status counts, and the latest pair
is written in both cases. -/
theorem c4_snapshot_change_gate (p c : List (String × Nat)) (ts : String) :
    (((saveWithChangeGate (some p) (some c) ts).tsHtml.isSome ∧
      (saveWithChangeGate (some p) (some c) ts).tsPng.isSome) ↔
      ∃ k ∈ fourKeys, dictGet p k ≠ dictGet c k) ∧
    (saveWithChangeGate (some p) (some c) ts).latestHtml = "calendar.html" ∧
    (saveWithChangeGate (some p) (some c) ts).latestPng = "calendar.png" := by
  refine ⟨?_, rfl, rfl⟩
  rw [← summariesChanged_some_iff]
  unfold saveWithChangeGate saveCalendarAssets
  cases h : summariesChanged (some p) (some c) <;> simp [h]

/-- C4 witness: the theorem applied at two concrete summaries differing
in the circle count shows the timestamped pair present. -/
theorem c4_witness :
    (saveWithChangeGate (some [("○", 1)]) (some [("○", 2)]) "t").tsHtml.isSome :=
  ((c4_snapshot_change_gate [("○", 1)] [("○", 2)] "t").1.mpr
    ⟨"○", by decide, by decide⟩).1

/-- The oldest-first prefix/suffix split of a sorted file list: the
prefix has the requested length, the suffix has exactly the cap, and
every pruned file is at most as new as every kept one. -/
theorem take_drop_spec {l : List SnapFile} {k : Nat}
    (hs : List.Sorted byMtime l) (hk : k ≤ l.length) :
    (l.take (l.length - k)).length = l.length - k ∧
    l = l.take (l.length - k) ++ l.drop (l.length - k) ∧
    (l.drop (l.length - k)).length = k ∧
    ∀ d ∈ l.take (l.length - k), ∀ s ∈ l.drop (l.length - k),
      d.mtime ≤ s.mtime := by
  refine ⟨?_, (List.take_append_drop _ l).symm, ?_, ?_⟩
  · rw [List.length_take]; omega
  · rw [List.length_drop]; omega
  · intro d hd s hs2
    have h2 : List.Pairwise byMtime
        (l.take (l.length - k) ++ l.drop (l.length - k)) := by
      rw [List.take_append_drop]; exact hs
    exact (List.pairwise_append.mp h2).2.2 d hd s hs2

/-- C5: pruning deletes nothing when the timestamped count is at or
below the cap; above the cap it deletes exactly the oldest files so that
exactly the cap remain, independently for the png and html sets, and
only glob-matching timestamped names are ever deleted, never the latest
pair. -/
theorem c5_rotate_retention (files : List SnapFile) (maxPng maxHtml : Nat) :
    (((pngTsSorted files).length ≤ maxPng → rotateDeletedPng files maxPng = []) ∧
     (maxPng < (pngTsSorted files).length →
       (rotateDeletedPng files maxPng).length = (pngTsSorted files).length - maxPng ∧
       ∃ kept, pngTsSorted files = rotateDeletedPng files maxPng ++ kept ∧
         kept.length = maxPng ∧
         ∀ d ∈ rotateDeletedPng files maxPng, ∀ s ∈ kept, d.mtime ≤ s.mtime)) ∧
    (((htmlTsSorted files).length ≤ maxHtml → rotateDeletedHtml files maxHtml = []) ∧
     (maxHtml < (htmlTsSorted files).length →
       (rotateDeletedHtml files maxHtml).length = (htmlTsSorted files).length - maxHtml ∧
       ∃ kept, htmlTsSorted files = rotateDeletedHtml files maxHtml ++ kept ∧
         kept.length = maxHtml ∧
         ∀ d ∈ rotateDeletedHtml files maxHtml, ∀ s ∈ kept, d.mtime ≤ s.mtime)) ∧
    (∀ f ∈ rotateDeleted files maxPng maxHtml,
      isTsPng f.name = true ∨ isTsHtml f.name = true) ∧
    isTsPng "calendar.png" = false ∧ isTsHtml "calendar.html" = false := by
  have hps : List.Sorted byMtime (pngTsSorted files) :=
    List.sorted_insertionSort _ _
  have hhs : List.Sorted byMtime (htmlTsSorted files) :=
    List.sorted_insertionSort _ _
  refine ⟨⟨?_, ?_⟩, ⟨?_, ?_⟩, ?_, by decide, by decide⟩
  · intro h
    unfold rotateDeletedPng
    rw [if_neg (by omega)]
  · intro h
    obtain ⟨h1, h2, h3, h4⟩ := take_drop_spec hps (Nat.le_of_lt h)
    unfold rotateDeletedPng
    rw [if_pos h]
    exact ⟨h1, (pngTsSorted files).drop ((pngTsSorted files).length - maxPng),
      h2, h3, h4⟩
  · intro h
    unfold rotateDeletedHtml
    rw [if_neg (by omega)]
  · intro h
    obtain ⟨h1, h2, h3, h4⟩ := take_drop_spec hhs (Nat.le_of_lt h)
    unfold rotateDeletedHtml
    rw [if_pos h]
    exact ⟨h1, (htmlTsSorted files).drop ((htmlTsSorted files).length - maxHtml),
      h2, h3, h4⟩
  · intro f hf
    rcases List.mem_append.mp hf with hf | hf
    · left
      have hmem : f ∈ pngTsSorted files := by
        unfold rotateDeletedPng at hf
        split at hf
        · exact List.take_subset _ _ hf
        · simp at hf
      have : f ∈ files.filter (fun g => isTsPng g.name) :=
        (List.perm_insertionSort _ _).mem_iff.mp hmem
      exact (List.mem_filter.mp this).2
    · right
      have hmem : f ∈ htmlTsSorted files := by
        unfold rotateDeletedHtml at hf
        split at hf
        · exact List.take_subset _ _ hf
        · simp at hf
      have : f ∈ files.filter (fun g => isTsHtml g.name) :=
        (List.perm_insertionSort _ _).mem_iff.mp hmem
      exact (List.mem_filter.mp this).2

/-- C5 witness: the theorem applied to three timestamped screenshots and
a cap of one shows exactly two deletions. -/
theorem c5_witness :
    1 < (pngTsSorted demoFiles).length ∧
    (rotateDeletedPng demoFiles 1).length = (pngTsSorted demoFiles).length - 1 :=
  ⟨by decide, (((c5_rotate_retention demoFiles 1 1).1.2) (by decide)).1⟩

/-- The loop of build_time_increase_lines, when it does not raise,
returns one rendered line per day with a non-empty range list, in list
order. -/
theorem timeLinesGo_eq {includeFlag : Bool}
    {jph : Option (Nat → Nat → Nat → Bool)} {rangesOf : Nat → List String}
    {y mo : Nat} : ∀ {l : List Nat} {lines : List String},
    timeLinesGo includeFlag jph rangesOf y mo l = some lines →
    lines = (l.filter (fun di => !(rangesOf di).isEmpty)).map
      (fun di => mkTimeLine includeFlag jph y mo di (rangesOf di)) := by
  intro l
  induction l with
  | nil =>
    intro lines h
    simp only [timeLinesGo, Option.some.injEq] at h
    simp [← h]
  | cons di t ih =>
    intro lines h
    simp only [timeLinesGo] at h
    cases he : (rangesOf di).isEmpty with
    | true =>
      rw [he] at h
      simp only [if_true] at h
      simp [List.filter_cons, he, ih h]
    | false =>
      rw [he] at h
      simp only [Bool.false_eq_true, if_false] at h
      cases hv : dateValid y mo di with
      | false => rw [hv] at h; simp at h
      | true =>
        rw [hv] at h
        simp only [if_true, Option.map_eq_some'] at h
        obtain ⟨ls, hls, hcons⟩ := h
        subst hcons
        simp [List.filter_cons, he, ih hls]

/-- C2 amended: the notification lines for a month are exactly one line
per improved day with a non-empty extracted range list, rendered by
mkTimeLine (date, parenthesized weekday with optional holiday suffix, a
colon, the ranges joined by a full-width comma), in ascending day
order. -/
theorem c2_amended_time_lines (includeFlag : Bool)
    (jph : Option (Nat → Nat → Nat → Bool)) (rangesOf : Nat → List String)
    (monthText : String) (prevDetails curDetails : List Detail)
    (y mo : Nat) (lines : List String)
    (hp : parseMonthText monthText = some (y, mo))
    (hr : buildTimeIncreaseLines includeFlag jph rangesOf monthText
      prevDetails curDetails = some lines) :
    lines = ((computeImprovedDays prevDetails curDetails).filter
        (fun di => !(rangesOf di).isEmpty)).map
      (fun di => mkTimeLine includeFlag jph y mo di (rangesOf di)) ∧
    List.Sorted (· ≤ ·) (computeImprovedDays prevDetails curDetails) := by
  unfold buildTimeIncreaseLines at hr
  rw [hp] at hr
  exact ⟨timeLinesGo_eq hr, computeImprovedDays_sorted _ _⟩

/-- C2 witness: the amended theorem applied at the concrete improved
day 5. -/
theorem c2_witness :
    (["2026年2月5日 (木) : 9～12時"] : List String) =
      ((computeImprovedDays demoPrev demoCur).filter
          (fun di => !(demoRanges di).isEmpty)).map
        (fun di => mkTimeLine false none 2026 2 di (demoRanges di)) :=
  (c2_amended_time_lines false none demoRanges "2026年2月" demoPrev demoCur
    2026 2 ["2026年2月5日 (木) : 9～12時"] (by decide) (by decide)).1

/-- C3 amended: no baseline is consulted; exactly the improved days
whose extracted available-range list is non-empty produce a line, and
each such day's rendered line is among the notification lines. -/
theorem c3_amended_gating (includeFlag : Bool)
    (jph : Option (Nat → Nat → Nat → Bool)) (rangesOf : Nat → List String)
    (monthText : String) (prevDetails curDetails : List Detail)
    (y mo : Nat) (lines : List String)
    (hp : parseMonthText monthText = some (y, mo))
    (hr : buildTimeIncreaseLines includeFlag jph rangesOf monthText
      prevDetails curDetails = some lines) :
    lines.length = ((computeImprovedDays prevDetails curDetails).filter
      (fun di => !(rangesOf di).isEmpty)).length ∧
    ∀ di ∈ computeImprovedDays prevDetails curDetails,
      !(rangesOf di).isEmpty →
      mkTimeLine includeFlag jph y mo di (rangesOf di) ∈ lines := by
  unfold buildTimeIncreaseLines at hr
  rw [hp] at hr
  have h := timeLinesGo_eq hr
  constructor
  · rw [h, List.length_map]
  · intro di hdi hne
    rw [h]
    exact List.mem_map_of_mem _ (List.mem_filter.mpr ⟨hdi, hne⟩)

/-- C3 witness: the amended theorem applied at the concrete improved
day 5 with its non-empty range list. -/
theorem c3_witness :
    mkTimeLine false none 2026 2 5 (demoRanges 5) ∈
      (["2026年2月5日 (木) : 9～12時"] : List String) :=
  (c3_amended_gating false none demoRanges "2026年2月" demoPrev demoCur
    2026 2 ["2026年2月5日 (木) : 9～12時"] (by decide) (by decide)).2
    5 (by decide) (by decide)

/-- C8 counterexample: the cell text of day number 32 is materialized as
a Day Detail with day 32, although 32 is outside the claimed 1-31
range. -/
theorem c8_counterexample :
    summarizeFromBlocks [day32Block] emptyPatterns emptyPatterns
      = ([("○", 0), ("△", 0), ("×", 0), ("未判定", 1)], [⟨"32日", "未判定", "32日"⟩]) ∧
    dayStrToInt "32日" = some 32 ∧ ¬(32 ≤ 31) := by
  refine ⟨by decide, by decide, by decide⟩

/-- C6 amended: a circle glyph in the stripped cell text, either the
canonical circle or the large-circle variant that the code maps to it,
makes the cell resolve to Available no matter what keyword patterns are
configured. -/
theorem c6_amended_glyph_priority (raw : String) (pat : Patterns) :
    ('○' ∈ (pyStrip raw).toList → stFromTextAndSrc raw pat = some "○") ∧
    ('◯' ∈ (pyStrip raw).toList → stFromTextAndSrc raw pat = some "○") := by
  constructor
  · intro h
    have hc : (pyStrip raw).toList.contains '○' = true := by
      simpa using h
    simp only [stFromTextAndSrc, hc, if_true]
  · intro h
    have hc : (pyStrip raw).toList.contains '◯' = true := by
      simpa using h
    simp only [stFromTextAndSrc, hc, if_true]
    split <;> rfl

/-- C6 witness: the amended theorem applied to a text holding both a
circle glyph and a cross letter. -/
theorem c6_witness :
    stFromTextAndSrc "○ x" ⟨[], [], ["x"]⟩ = some "○" :=
  (c6_amended_glyph_priority "○ x" ⟨[], [], ["x"]⟩).1 (by decide)

/-- Numeric bounds carried by the leading-digit test. -/
theorem isDigit19_bounds {c : Char} (h : isDigit19 c = true) :
    49 ≤ c.toNat ∧ c.toNat ≤ 57 := by
  simpa [isDigit19] using h

/-- Numeric bounds carried by the digit test. -/
theorem isDigit09_bounds {c : Char} (h : isDigit09 c = true) :
    48 ≤ c.toNat ∧ c.toNat ≤ 57 := by
  simpa [isDigit09] using h

theorem digitsVal_one (c : Char) : digitsVal [c] = c.toNat - 48 := by
  simp [digitsVal, digitVal]

theorem digitsVal_two (a b : Char) :
    digitsVal [a, b] = 10 * (a.toNat - 48) + (b.toNat - 48) := by
  simp [digitsVal, digitVal]

/-- A successful one-digit attempt carries the leading digit's value. -/
theorem matchOneDigit_bounds {c1 : Char} {rest : List Char}
    {g : List Char × List Char} (h19 : isDigit19 c1 = true)
    (h : matchOneDigit c1 rest = some g) :
    1 ≤ digitsVal g.1 ∧ digitsVal g.1 ≤ 99 := by
  obtain ⟨b1, b2⟩ := isDigit19_bounds h19
  unfold matchOneDigit at h
  cases hm : matchSpacesThenDay rest with
  | none => rw [hm] at h; simp at h
  | some ws =>
    rw [hm] at h
    simp only [Option.some.injEq] at h
    rw [← h, digitsVal_one]
    omega

/-- A successful two-digit attempt carries a two-digit value. -/
theorem matchTwoDigit_bounds {c1 c2 : Char} {rest2 : List Char}
    {g : List Char × List Char} (h19 : isDigit19 c1 = true)
    (h : matchTwoDigit c1 c2 rest2 = some g) :
    1 ≤ digitsVal g.1 ∧ digitsVal g.1 ≤ 99 := by
  obtain ⟨b1, b2⟩ := isDigit19_bounds h19
  unfold matchTwoDigit at h
  cases hd2 : isDigit09 c2 with
  | false => rw [hd2] at h; simp at h
  | true =>
    rw [hd2] at h
    simp only [if_true] at h
    obtain ⟨b3, b4⟩ := isDigit09_bounds hd2
    cases hm : matchSpacesThenDay rest2 with
    | none => rw [hm] at h; simp at h
    | some ws =>
      rw [hm] at h
      simp only [Option.some.injEq] at h
      rw [← h, digitsVal_two]
      omega

/-- A successful match of the day pattern carries a digit group whose
value lies in 1 to 99. -/
theorem matchDayAt_bounds : ∀ {cs : List Char} {g : List Char × List Char},
    matchDayAt cs = some g → 1 ≤ digitsVal g.1 ∧ digitsVal g.1 ≤ 99 := by
  intro cs g h
  cases cs with
  | nil => simp [matchDayAt] at h
  | cons c1 rest =>
    simp only [matchDayAt] at h
    cases hd : isDigit19 c1 with
    | false => rw [hd] at h; simp at h
    | true =>
      rw [hd] at h
      simp only [if_true] at h
      cases rest with
      | nil =>
        simp only [Option.orElse] at h
        exact matchOneDigit_bounds hd h
      | cons c2 rest2 =>
        change ((matchTwoDigit c1 c2 rest2).orElse
          fun _ => matchOneDigit c1 (c2 :: rest2)) = some g at h
        cases h2 : matchTwoDigit c1 c2 rest2 with
        | some r =>
          rw [h2] at h
          simp only [Option.orElse, Option.some.injEq] at h
          rw [← h]
          exact matchTwoDigit_bounds hd h2
        | none =>
          rw [h2] at h
          simp only [Option.orElse] at h
          exact matchOneDigit_bounds hd h

/-- The leftmost-match search inherits the digit-group bounds. -/
theorem searchDay_bounds : ∀ {cs : List Char} {g : List Char × List Char},
    searchDay cs = some g → 1 ≤ digitsVal g.1 ∧ digitsVal g.1 ≤ 99 := by
  intro cs
  induction cs with
  | nil => intro g h; simp [searchDay] at h
  | cons c t ih =>
    intro g h
    simp only [searchDay] at h
    cases hm : matchDayAt (c :: t) with
    | some r =>
      rw [hm] at h
      simp only [Option.some.injEq] at h
      rw [← h]
      exact matchDayAt_bounds hm
    | none => rw [hm] at h; exact ih h

/-- C8 amended: the day pattern accepts any one- or two-digit number
with a non-zero leading digit, so every extracted day number lies in 1
to 99 (not 1 to 31), and a cell in which no day is found anywhere
contributes no Day Detail. -/
theorem c8_amended_day_extraction :
    (∀ (s : String) (g : List Char × List Char), searchDay s.toList = some g →
      1 ≤ digitsVal g.1 ∧ digitsVal g.1 ≤ 99) ∧
    (∀ s n, dayStrToInt s = some n → 1 ≤ n ∧ n ≤ 99) ∧
    (∀ b rest pat css, blockDay b = none →
      summarizeFromBlocks (b :: rest) pat css = summarizeFromBlocks rest pat css) := by
  refine ⟨fun s g h => searchDay_bounds h, ?_, ?_⟩
  · intro s n h
    unfold dayStrToInt at h
    cases hs : searchDay s.toList with
    | none => rw [hs] at h; simp at h
    | some g =>
      rw [hs] at h
      simp only [Option.map_some', Option.some.injEq] at h
      rw [← h]
      exact searchDay_bounds hs
  · intro b rest pat css h
    simp [summarizeFromBlocks, summarizeStep, h]

/-- C8 witness: the amended theorem applied to the day-7 text and to a
dayless cell. -/
theorem c8_witness :
    (1 ≤ 7 ∧ 7 ≤ 99) ∧
    summarizeFromBlocks [⟨"", "", "", "no day here", []⟩] emptyPatterns emptyPatterns
      = summarizeFromBlocks [] emptyPatterns emptyPatterns :=
  ⟨c8_amended_day_extraction.2.1 "7日" 7 (by decide),
   c8_amended_day_extraction.2.2 ⟨"", "", "", "no day here", []⟩ [] emptyPatterns
     emptyPatterns (by decide)⟩

/-- Text-based status resolution only ever yields the three glyph
statuses. -/
theorem stFromTextAndSrc_cases {raw : String} {pat : Patterns} {st : String}
    (h : stFromTextAndSrc raw pat = some st) :
    st = "○" ∨ st = "△" ∨ st = "×" := by
  simp only [stFromTextAndSrc] at h
  split_ifs at h <;> simp only [Option.some.injEq] at h <;> simp [← h]

/-- Class-based status resolution only ever yields the three glyph
statuses. -/
theorem statusFromClass_cases {cls : String} {css : Patterns} {st : String}
    (h : statusFromClass cls css = some st) :
    st = "○" ∨ st = "△" ∨ st = "×" := by
  simp only [statusFromClass] at h
  split_ifs at h <;> simp only [Option.some.injEq] at h <;> simp [← h]

/-- The fallback class loops only ever yield the three glyph statuses. -/
theorem classStatusFallback_cases {cls : String} {css : Patterns} {st : String}
    (h : classStatusFallback cls css = some st) :
    st = "○" ∨ st = "△" ∨ st = "×" := by
  simp only [classStatusFallback] at h
  split_ifs at h <;> simp only [Option.some.injEq] at h <;> simp [← h]

/-- Image-based status resolution on the primary path inherits the
three-glyph range. -/
theorem imgsStatusPrimary_cases {pat : Patterns} :
    ∀ {imgs : List Img} {st : String}, imgsStatusPrimary pat imgs = some st →
    st = "○" ∨ st = "△" ∨ st = "×" := by
  intro imgs
  induction imgs with
  | nil => intro st h; simp [imgsStatusPrimary] at h
  | cons im t ih =>
    intro st h
    simp only [imgsStatusPrimary] at h
    cases hs : stFromTextAndSrc (im.alt ++ " " ++ im.title ++ " " ++ im.src) pat with
    | some st2 =>
      rw [hs] at h
      simp only [Option.some.injEq] at h
      rw [← h]
      exact stFromTextAndSrc_cases hs
    | none => rw [hs] at h; exact ih h

/-- Image-based status resolution on the fallback path inherits the
three-glyph range. -/
theorem imgsStatusFallback_cases {pat : Patterns} :
    ∀ {imgs : List Img} {st : String}, imgsStatusFallback pat imgs = some st →
    st = "○" ∨ st = "△" ∨ st = "×" := by
  intro imgs
  induction imgs with
  | nil => intro st h; simp [imgsStatusFallback] at h
  | cons im t ih =>
    intro st h
    simp only [imgsStatusFallback] at h
    cases hs : stFromTextAndSrc (im.alt ++ " " ++ im.title) pat with
    | some st2 =>
      rw [hs] at h
      simp only [Option.some.injEq] at h
      rw [← h]
      exact stFromTextAndSrc_cases hs
    | none =>
      rw [hs] at h
      cases hs2 : stFromTextAndSrc im.src pat with
      | some st3 =>
        rw [hs2] at h
        simp only [Option.some.injEq] at h
        rw [← h]
        exact stFromTextAndSrc_cases hs2
      | none => rw [hs2] at h; exact ih h

/-- The resolved status of a td block is one of the four values. -/
theorem blockStatus_mem (b : TdBlock) (pat css : Patterns) :
    blockStatus b pat css ∈ fourKeys := by
  unfold blockStatus
  cases h1 : stFromTextAndSrc b.innerText pat with
  | some st =>
    rcases stFromTextAndSrc_cases h1 with h | h | h <;> simp [fourKeys, h]
  | none =>
    cases h2 : imgsStatusPrimary pat b.imgs with
    | some st =>
      rcases imgsStatusPrimary_cases h2 with h | h | h <;> simp [fourKeys, h]
    | none =>
      cases h3 : statusFromClass b.cls css with
      | some st =>
        rcases statusFromClass_cases h3 with h | h | h <;> simp [fourKeys, h]
      | none => simp [fourKeys]

/-- The resolved status of a fallback cell is one of the four values. -/
theorem cellStatus_mem (c : FallbackCell) (pat css : Patterns) :
    cellStatus c pat css ∈ fourKeys := by
  unfold cellStatus
  cases h1 : stFromTextAndSrc c.txt pat with
  | some st =>
    rcases stFromTextAndSrc_cases h1 with h | h | h <;> simp [fourKeys, h]
  | none =>
    cases h2 : imgsStatusFallback pat c.imgs with
    | some st =>
      rcases imgsStatusFallback_cases h2 with h | h | h <;> simp [fourKeys, h]
    | none =>
      cases h3 : stFromTextAndSrc (c.aria ++ " " ++ c.title) pat with
      | some st =>
        rcases stFromTextAndSrc_cases h3 with h | h | h <;> simp [fourKeys, h]
      | none =>
        cases h4 : classStatusFallback c.cls css with
        | some st =>
          rcases classStatusFallback_cases h4 with h | h | h <;> simp [fourKeys, h]
        | none => simp [fourKeys]

/-- Bumping an existing key leaves the key sequence unchanged. -/
theorem dictBump_fst {k : String} : ∀ {m : List (String × Nat)},
    k ∈ m.map Prod.fst → (dictBump k m).map Prod.fst = m.map Prod.fst := by
  intro m
  induction m with
  | nil => simp
  | cons p t ih =>
    obtain ⟨a, v⟩ := p
    intro h
    by_cases hk : a = k
    · simp [dictBump, hk]
    · have hmem : k ∈ t.map Prod.fst := by
        rcases List.mem_cons.mp h with h1 | h1
        · exact absurd h1.symm hk
        · exact h1
      simp [dictBump, hk, ih hmem]

/-- Bumping any key increments the total count by one. -/
theorem dictBump_sum (k : String) : ∀ (m : List (String × Nat)),
    ((dictBump k m).map Prod.snd).sum = ((m.map Prod.snd).sum) + 1 := by
  intro m
  induction m with
  | nil => simp [dictBump]
  | cons p t ih =>
    obtain ⟨a, v⟩ := p
    by_cases hk : a = k
    · simp [dictBump, hk]
      omega
    · simp [dictBump, hk, ih]
      omega

/-- One summarizer step preserves the summarizer invariant. -/
theorem summarizeStep_ok {pat css : Patterns}
    {acc : List (String × Nat) × List Detail} (b : TdBlock) (h : SummOk acc) :
    SummOk (summarizeStep pat css acc b) := by
  obtain ⟨h1, h2, h3⟩ := h
  unfold summarizeStep
  cases hd : blockDay b with
  | none => exact ⟨h1, h2, h3⟩
  | some day =>
    have hstm : blockStatus b pat css ∈ fourKeys := blockStatus_mem b pat css
    refine ⟨?_, ?_, ?_⟩
    · rw [dictBump_fst (by rw [h1]; exact hstm)]
      exact h1
    · rw [dictBump_sum, h2, List.length_append]
      rfl
    · intro d hd2
      rcases List.mem_append.mp hd2 with hmem | hmem
      · exact h3 d hmem
      · rcases List.mem_singleton.mp hmem with rfl
        exact hstm

/-- One fallback step preserves the summarizer invariant. -/
theorem summarizeFallbackStep_ok {pat css : Patterns}
    {acc : List (String × Nat) × List Detail} (c : FallbackCell) (h : SummOk acc) :
    SummOk (summarizeFallbackStep pat css acc c) := by
  obtain ⟨h1, h2, h3⟩ := h
  unfold summarizeFallbackStep
  cases hd : fallbackDayDigits c with
  | none => exact ⟨h1, h2, h3⟩
  | some digits =>
    have hstm : cellStatus c pat css ∈ fourKeys := cellStatus_mem c pat css
    refine ⟨?_, ?_, ?_⟩
    · rw [dictBump_fst (by rw [h1]; exact hstm)]
      exact h1
    · rw [dictBump_sum, h2, List.length_append]
      rfl
    · intro d hd2
      rcases List.mem_append.mp hd2 with hmem | hmem
      · exact h3 d hmem
      · rcases List.mem_singleton.mp hmem with rfl
        exact hstm

/-- The fold of summarizer steps preserves the invariant. -/
theorem foldl_summarizeStep_ok {pat css : Patterns} :
    ∀ (blocks : List TdBlock) (acc : List (String × Nat) × List Detail),
    SummOk acc → SummOk (blocks.foldl (summarizeStep pat css) acc) := by
  intro blocks
  induction blocks with
  | nil => intro acc h; exact h
  | cons b t ih =>
    intro acc h
    exact ih _ (summarizeStep_ok b h)

/-- The fold of fallback steps preserves the invariant. -/
theorem foldl_summarizeFallbackStep_ok {pat css : Patterns} :
    ∀ (cells : List FallbackCell) (acc : List (String × Nat) × List Detail),
    SummOk acc → SummOk (cells.foldl (summarizeFallbackStep pat css) acc) := by
  intro cells
  induction cells with
  | nil => intro acc h; exact h
  | cons c t ih =>
    intro acc h
    exact ih _ (summarizeFallbackStep_ok c h)

/-- The empty summary satisfies the invariant. -/
theorem initSummary_ok : SummOk (initSummary, []) := by
  refine ⟨rfl, rfl, ?_⟩
  intro d hd
  simp at hd

/-- C10: both summarizers return a summary with exactly the four status
keys whose counts sum to the number of Day Details, every detail status
being one of the four values. -/
theorem c10_summarizer_invariants (blocks : List TdBlock)
    (cells : List FallbackCell) (pat css : Patterns) :
    SummOk (summarizeFromBlocks blocks pat css) ∧
    SummOk (summarizeFallback cells pat css) :=
  ⟨foldl_summarizeStep_ok blocks (initSummary, []) initSummary_ok,
   foldl_summarizeFallbackStep_ok cells (initSummary, []) initSummary_ok⟩

/-- C10 witness: the theorem applied to a one-cell calendar. -/
theorem c10_witness :
    (summarizeFromBlocks [day32Block] emptyPatterns emptyPatterns).1.map Prod.fst
      = fourKeys :=
  (c10_summarizer_invariants [day32Block] [] emptyPatterns emptyPatterns).1.1

end Monitor
